import Mathlib

/-!
hokud: windowing and rotation layer of the Hokusai counting service.

Shallow embedding of `src/hokud/main.go`.

* Go `int` / `int64` values are Lean `Int`s (`int` is taken to be 64 bits wide);
  every arithmetic result that Go stores in a 64-bit signed integer goes through
  `wrap64` (two's complement). `uint32(x)` is `toUint32`.
* The two external collaborators (the frequency estimator `sketch.Hokusai` and
  the top-K accumulator `TopKs`) are not part of this file of the program. Their
  mutating calls are recorded, in program order, in a call log (`List Call`);
  their read-only calls (`Count`, `Len`, `Keys`) are answered by a `Reads`
  record that may depend on the log so far.
* `strconv.Atoi` and `strings.Split(_, "\t")` are modelled by `Atoi` and
  `Split`; the `bufio.Scanner` of `loadDataFrom` by `scannerLines`, on a file
  whose content is UTF-8 text.
-/

namespace Hokud

/-! ## Machine integers -/

/-- Two's-complement reduction into the signed 64-bit range. -/
def wrap64 (x : Int) : Int :=
  (x + 9223372036854775808) % 18446744073709551616 - 9223372036854775808

/-- Go conversion `uint32(x)` of a signed integer. -/
def toUint32 (x : Int) : Nat := (x % 4294967296).toNat

/-- Membership in the signed 64-bit range (the values of Go `int64`, and of `int`
on 64-bit platforms). -/
def InInt64 (x : Int) : Prop :=
  -9223372036854775808 ≤ x ∧ x < 9223372036854775808

instance (x : Int) : Decidable (InInt64 x) := by
  unfold InInt64; infer_instance

/-! ## Library functions: `strconv.Atoi`, `strings.Split` -/

/-- Value of an ASCII decimal digit. -/
def digitVal (c : Char) : Option Nat :=
  if 48 ≤ c.toNat ∧ c.toNat ≤ 57 then some (c.toNat - 48) else none

/-- Accumulate decimal digits; `none` on the first non-digit. -/
def parseDigits : List Char → Nat → Option Nat
  | [], acc => some acc
  | c :: cs, acc =>
    match digitVal c with
    | none => none
    | some d => parseDigits cs (acc * 10 + d)

/-- Unsigned part of `Atoi`: at least one digit, digits only. -/
def parseUnsigned (cs : List Char) : Option Nat :=
  if cs = [] then none else parseDigits cs 0

/-- Model of `strconv.Atoi` on a 64-bit platform: an optional sign, one or more
decimal digits, and the value must fit in `int64`; `none` stands for a non-nil
error (`ErrSyntax` or `ErrRange`). -/
def Atoi (s : String) : Option Int :=
  match s.data with
  | [] => none
  | c :: cs =>
    if c = '-' then
      match parseUnsigned cs with
      | none => none
      | some n => if n ≤ 9223372036854775808 then some (-(n : Int)) else none
    else if c = '+' then
      match parseUnsigned cs with
      | none => none
      | some n => if n < 9223372036854775808 then some (n : Int) else none
    else
      match parseUnsigned (c :: cs) with
      | none => none
      | some n => if n < 9223372036854775808 then some (n : Int) else none

/-- Split a character list at every tab. -/
def splitOnTab : List Char → List (List Char)
  | [] => [[]]
  | c :: cs =>
    if c = '\t' then [] :: splitOnTab cs
    else
      match splitOnTab cs with
      | [] => [[c]]
      | f :: fs => (c :: f) :: fs

/-- Model of `strings.Split(line, "\t")`. -/
def Split (line : String) : List String :=
  (splitOnTab line.data).map String.mk

/-! ## Library type: `bufio.Scanner` with the default `ScanLines` split -/

/-- Number of bytes of the UTF-8 encoding of a character. -/
def utf8Len (c : Char) : Nat :=
  if c.toNat < 128 then 1 else if c.toNat < 2048 then 2 else if c.toNat < 65536 then 3 else 4

/-- Number of bytes of the UTF-8 encoding of a character list. -/
def byteLen : List Char → Nat
  | [] => 0
  | c :: cs => utf8Len c + byteLen cs

/-- Constant `bufio.MaxScanTokenSize`: the largest buffer a default scanner uses. -/
def MaxScanTokenSize : Nat := 65536

/-- The newline-terminated pieces of a text; a final piece without newline counts
when it is not empty. -/
def rawLines : List Char → List (List Char)
  | [] => []
  | c :: cs =>
    if c = '\n' then [] :: rawLines cs
    else
      match rawLines cs with
      | [] => [[c]]
      | l :: ls => (c :: l) :: ls

/-- Helper `dropCR` of `bufio.ScanLines`: remove one trailing carriage return. -/
def dropCR : List Char → List Char
  | [] => []
  | [c] => if c = '\r' then [] else [c]
  | c :: d :: cs => c :: dropCR (d :: cs)

/-- The successive values of `scanner.Text()` while `scanner.Scan()` is true: the
scan ends, without any report, at the end of the text or at the first piece that
does not fit in a buffer of `MaxScanTokenSize` bytes. -/
def scanPieces : List (List Char) → List String
  | [] => []
  | l :: ls =>
    if byteLen l < MaxScanTokenSize then String.mk (dropCR l) :: scanPieces ls else []

/-- Lines that `for scanner.Scan() { line := scanner.Text() ... }` yields on a file
with the given content. -/
def scannerLines (content : String) : List String :=
  scanPieces (rawLines content.data)

/-! ## Collaborators -/

/-- A mutating call issued to one of the two external collaborators:
`sketch.Hokusai.Add`, `TopKs.Insert`, `TopKs.Tick`. -/
inductive Call where
  | sketchAdd (epoch : Int) (x : String) (count : Nat)
  | topkInsert (x : String) (count : Int)
  | topkTick (k : Int)
  deriving DecidableEq, Repr

/-- Answers of the read-only collaborator calls, as functions of the calls
issued so far: `sketch.Hokusai.Count`, `TopKs.Len`, `TopKs.Keys`. -/
structure Reads where
  Count : List Call → Int → String → Nat
  Len : List Call → Int
  Keys : List Call → Int → List String

/-- Package-level variables `Epoch0` and `WindowSize`. -/
structure Globals where
  Epoch0 : Int
  WindowSize : Int

/-- Result of an HTTP handler or of a loop body: normal completion,
`http.Error(w, msg, http.StatusBadRequest)`, or a run-time panic. -/
inductive Outcome (α : Type) where
  | ok (a : α)
  | badRequest (msg : String)
  | panic (msg : String)
  deriving DecidableEq, Repr

/-! ## `hoku.Add`, `hoku.Count`, `defaultInt` -/

/-- Source `func (h *hoku) Add`: lock, forward to the sketch, unlock. -/
def hoku.Add (calls : List Call) (epoch : Int) (x : String) (count : Nat) : List Call :=
  calls ++ [Call.sketchAdd epoch x count]

/-- Source `func (h *hoku) Count`: lock, ask the sketch, unlock, return the answer. -/
def hoku.Count (rd : Reads) (calls : List Call) (epoch : Int) (x : String) : Nat :=
  rd.Count calls epoch x

/-- Source `defaultInt`: the pair `(value, err != nil)`. -/
def defaultInt (s : String) (defval : Int) : Int × Bool :=
  if s = "" then (defval, false)
  else
    match Atoi s with
    | none => (0, true)
    | some sint => (sint, false)

/-! ## `addHandler` -/

/-- Source `addHandler`. `now` is the value of `time.Now().Unix()`. On success the
result is the epoch written in the response and the extended call log. -/
def addHandler (now : Int) (calls : List Call) (item countS tS : String) :
    Outcome (Int × List Call) :=
  let (count, err) := defaultInt countS 1
  if err then Outcome.badRequest "bad count"
  else
    let (targ, err) := defaultInt tS 0
    if err then Outcome.badRequest "bad epoch"
    else
      let epoch := if targ = 0 then now else targ
      let calls1 := hoku.Add calls epoch item (toUint32 count)
      let calls2 := calls1 ++ [Call.topkInsert item count]
      Outcome.ok (epoch, calls2)

/-! ## `queryHandler` -/

/-- Source `QueryResponse`. -/
structure QueryResponse where
  Query : String
  Start : Int
  Step : Int
  Counts : List Nat
  deriving DecidableEq, Repr

/-- The loop `for t := start; t <= stop; t += int(WindowSize)` of `queryHandler`,
with the 64-bit wrap of `t +=`. `none` when the fuel is used up before the loop
condition fails. -/
def queryLoop (rd : Reads) (calls : List Call) (q : String) (W stop : Int) :
    Nat → Int → List Nat → Option (List Nat)
  | 0, t, acc => if t ≤ stop then none else some acc
  | fuel + 1, t, acc =>
    if t ≤ stop then
      queryLoop rd calls q W stop fuel (wrap64 (t + W)) (acc ++ [hoku.Count rd calls t q])
    else some acc

/-- Source `queryHandler`; `none` when the loop does not finish within `fuel`
iterations. -/
def queryHandler (g : Globals) (rd : Reads) (calls : List Call) (fuel : Nat)
    (q startS stopS : String) : Option (Outcome QueryResponse) :=
  let (start, err) := defaultInt startS 0
  if start = 0 ∨ start < g.Epoch0 ∨ err = true then some (Outcome.badRequest "bad start epoch")
  else
    let (stop, err) := defaultInt stopS 0
    if stop = 0 ∨ stop < g.Epoch0 ∨ err = true then some (Outcome.badRequest "bad stop epoch")
    else
      match queryLoop rd calls q g.WindowSize stop fuel start [] with
      | none => none
      | some counts =>
        some (Outcome.ok { Query := q, Start := start, Step := g.WindowSize, Counts := counts })

/-! ## `topkHandler` -/

/-- The expression `(int64(epoch) - Epoch0) / WindowSize` of `topkHandler`
(truncating division, 64-bit wrap), for a non-zero `WindowSize`. -/
def bucketIndex (g : Globals) (epoch : Int) : Int :=
  wrap64 (Int.tdiv (wrap64 (epoch - g.Epoch0)) g.WindowSize)

/-- Source `topkHandler`. -/
def topkHandler (g : Globals) (rd : Reads) (calls : List Call) (epochS : String) :
    Outcome (List String) :=
  let (epoch, err) := defaultInt epochS (-1)
  if epoch < 0 ∨ epoch < g.Epoch0 ∨ err = true then Outcome.badRequest "bad epoch"
  else if g.WindowSize = 0 then Outcome.panic "runtime error: integer divide by zero"
  else
    let t := bucketIndex g epoch
    if t < 0 ∨ t ≥ rd.Len calls then Outcome.badRequest "bad epoch"
    else Outcome.ok (rd.Keys calls t)

/-! ## `main`: live mode -/

/-- The assignment `Epoch0 = now - (now % int64(WindowSize))` of `main`; `none` is
the divide-by-zero panic. -/
def liveEpoch0 (now W : Int) : Option Int :=
  if W = 0 then none else some (wrap64 (now - Int.tmod now W))

/-- One iteration of the rotation goroutine of `main`, after its sleep: `t` is the
value of `time.Now().Unix()`. -/
def liveTick (topks : Int) (calls : List Call) (t : Int) : List Call :=
  hoku.Add calls t "" 0 ++ [Call.topkTick topks]

/-! ## `loadDataFrom`: replay mode -/

/-- Local state of the scan loop of `loadDataFrom` together with the call log. The
line counter is only used for progress logging and is kept as a natural number. -/
structure ReplayState where
  calls : List Call
  maxEpoch : Int
  window : Int
  lines : Nat
  deriving DecidableEq, Repr

/-- What one iteration of the scan loop does: go on with the next line (either by
`continue` or by reaching the end of the body) or panic; both carry the state
reached. -/
inductive LineResult where
  | next (st : ReplayState)
  | panic (st : ReplayState) (msg : String)
  deriving DecidableEq, Repr

/-- State carried by a `LineResult`. -/
def LineResult.state : LineResult → ReplayState
  | LineResult.next st => st
  | LineResult.panic st _ => st

/-- The block `if t > maxEpoch { ... }` of `loadDataFrom`. -/
def rotate (W topks : Int) (st : ReplayState) (t : Int) : ReplayState :=
  if t > st.maxEpoch then
    let step := wrap64 (t - st.maxEpoch)
    let window := wrap64 (st.window + step)
    if window ≥ W then
      { st with maxEpoch := t, window := 0, calls := st.calls ++ [Call.topkTick topks] }
    else
      { st with maxEpoch := t, window := window }
  else st

/-- Body of the scan loop of `loadDataFrom` for one line. -/
def processLine (W topks : Int) (st0 : ReplayState) (line : String) : LineResult :=
  let st := { st0 with lines := st0.lines + 1 }
  let fields := Split line
  match fields with
  | [] => LineResult.panic st "runtime error: index out of range [0] with length 0"
  | f0 :: rest =>
    match Atoi f0 with
    | none => LineResult.next st
    | some t =>
      let st1 := rotate W topks st t
      if fields.length = 3 then
        match Atoi (fields.getD 2 "") with
        | none => LineResult.next st1
        | some cint =>
          let count := toUint32 cint
          let key := fields.getD 1 ""
          LineResult.next
            { st1 with calls := hoku.Add st1.calls t key count ++ [Call.topkInsert key (count : Int)] }
      else
        match rest with
        | [] => LineResult.panic st1 "runtime error: index out of range [1] with length 1"
        | key :: _ =>
          LineResult.next
            { st1 with calls := hoku.Add st1.calls t key 1 ++ [Call.topkInsert key 1] }

/-- The body of the scan loop of `loadDataFrom` applied to the successive lines that
the scanner yields; stops at a panic. -/
def scanLoop (W topks : Int) : ReplayState → List String → LineResult
  | st, [] => LineResult.next st
  | st, line :: more =>
    match processLine W topks st line with
    | LineResult.next st1 => scanLoop W topks st1 more
    | LineResult.panic st1 msg => LineResult.panic st1 msg

/-- State of `loadDataFrom` when the scan loop is entered: a fresh sketch, one
`TopKs.Tick(topks)` issued, `maxEpoch = int(epoch0)`, `window = 0`, `lines = 0`. -/
def replayInit (epoch0 topks : Int) : ReplayState :=
  { calls := [Call.topkTick topks], maxEpoch := epoch0, window := 0, lines := 0 }

/-- Source `loadDataFrom` after the file has been opened; `content` is the content
of the file. -/
def loadDataFrom (W epoch0 topks : Int) (content : String) : LineResult :=
  scanLoop W topks (replayInit epoch0 topks) (scannerLines content)

/-! ## Live timeline -/

/-- One step of the live service as seen by the collaborators: an `/add` request
served by `addHandler` (`now` is its `time.Now().Unix()`), or one wake-up of the
rotation goroutine at time `t`. -/
inductive LiveEvent where
  | request (now : Int) (item countS tS : String)
  | timer (t : Int)
  deriving DecidableEq, Repr

/-- Effect of one live step on the call log; a rejected request issues no call. -/
def liveStep (topks : Int) (calls : List Call) : LiveEvent → List Call
  | LiveEvent.request now item countS tS =>
    match addHandler now calls item countS tS with
    | Outcome.ok (_, calls1) => calls1
    | _ => calls
  | LiveEvent.timer t => liveTick topks calls t

/-- Call log of `main` in live mode right after `TopKs.Tick(*topks)`. -/
def liveInit (topks : Int) : List Call := [Call.topkTick topks]

/-- Live mode: the steps of a timeline applied in order, from `liveInit`. -/
def liveRun (topks : Int) (timeline : List LiveEvent) : List Call :=
  timeline.foldl (liveStep topks) (liveInit topks)

/-! ## Observations on call logs and inputs -/

/-- Is the call a `TopKs.Insert`? -/
def Call.isInsert : Call → Bool
  | Call.topkInsert _ _ => true
  | _ => false

/-- Is the call a `TopKs.Tick`? -/
def Call.isTick : Call → Bool
  | Call.topkTick _ => true
  | _ => false

/-- The calls received by the top-K accumulator (`Insert` and `Tick`), in order. -/
def topkCalls (calls : List Call) : List Call :=
  calls.filter (fun c => c.isInsert || c.isTick)

/-- The `TopKs.Insert` calls, in order. -/
def insertCalls (calls : List Call) : List Call := calls.filter Call.isInsert

/-- Number of `TopKs.Tick` calls. -/
def tickCount (calls : List Call) : Nat := calls.countP Call.isTick

/-- Timestamp field of a replay line, when it parses. -/
def timestampOf (line : String) : Option Int :=
  match Split line with
  | [] => none
  | f0 :: _ => Atoi f0

/-- Timestamps of the lines whose first field parses, in order. -/
def parsedTimestamps (lines : List String) : List Int := lines.filterMap timestampOf

/-- Number of entries of `ts` that are strictly greater than every entry before
them (`prev` holds the entries already seen). -/
def newMaxCount (prev : List Int) : List Int → Nat
  | [] => 0
  | t :: ts => (if ∀ p ∈ prev, p < t then 1 else 0) + newMaxCount (prev ++ [t]) ts

/-- Number of timer wake-ups of a timeline. -/
def timerCount (timeline : List LiveEvent) : Nat :=
  timeline.countP (fun e => match e with | LiveEvent.timer _ => true | _ => false)

/-- An event of the data model: timestamp, key, weight. -/
structure Event where
  timestamp : Int
  key : String
  weight : Int
  deriving DecidableEq, Repr

/-- The line is a replay record of the event: a timestamp field and a key field,
followed either by a weight field or, for the default weight 1, by nothing. -/
def IsRecord (line : String) (ev : Event) : Prop :=
  match Split line with
  | [f0, k, f2] => Atoi f0 = some ev.timestamp ∧ k = ev.key ∧ Atoi f2 = some ev.weight
  | [f0, k] => Atoi f0 = some ev.timestamp ∧ k = ev.key ∧ ev.weight = 1
  | _ => False

instance (line : String) (ev : Event) : Decidable (IsRecord line ev) := by
  unfold IsRecord; split <;> infer_instance

/-- The event that `addHandler` writes for an `/add` request (the epoch it uses, the
item and the count), or `none` when it rejects the request. -/
def acceptedEvent (now : Int) (item countS tS : String) : Option Event :=
  if (defaultInt countS 1).2 = true then none
  else if (defaultInt tS 0).2 = true then none
  else
    some ⟨if (defaultInt tS 0).1 = 0 then now else (defaultInt tS 0).1, item,
      (defaultInt countS 1).1⟩

/-- Events written by the accepted requests of a timeline, in order. -/
def eventsOf : List LiveEvent → List Event
  | [] => []
  | LiveEvent.request now item countS tS :: tl =>
    match acceptedEvent now item countS tS with
    | none => eventsOf tl
    | some ev => ev :: eventsOf tl
  | LiveEvent.timer _ :: tl => eventsOf tl

/-- The weight of the event is a value of `uint32`. -/
def WeightInRange (ev : Event) : Prop := 0 ≤ ev.weight ∧ ev.weight < 4294967296

instance (ev : Event) : Decidable (WeightInRange ev) := by
  unfold WeightInRange; infer_instance

/-- The timeline follows the window grid that starts at boundary `b`: every timer
wake-up is followed, before any other event, by an event stamped exactly `b + W`,
the next boundary, and every other event is stamped before the next boundary.
`pending` tells that a timer wake-up still waits for its boundary event. -/
def Aligned (W : Int) : Bool → Int → List LiveEvent → Prop
  | pending, _, [] => pending = false
  | pending, b, LiveEvent.request now item countS tS :: tl =>
    match acceptedEvent now item countS tS with
    | none => Aligned W pending b tl
    | some ev =>
      if pending = true then ev.timestamp = b + W ∧ Aligned W false (b + W) tl
      else ev.timestamp < b + W ∧ Aligned W false b tl
  | pending, b, LiveEvent.timer _ :: tl => pending = false ∧ Aligned W true b tl

instance decidableAligned (W : Int) :
    ∀ (tl : List LiveEvent) (pending : Bool) (b : Int), Decidable (Aligned W pending b tl)
  | [], pending, _ => by
    unfold Aligned
    infer_instance
  | LiveEvent.timer _ :: tl, pending, b => by
    unfold Aligned
    exact @instDecidableAnd _ _ _ (decidableAligned W tl true b)
  | LiveEvent.request now item countS tS :: tl, pending, b => by
    unfold Aligned
    split
    · exact decidableAligned W tl pending b
    · split
      · exact @instDecidableAnd _ _ _ (decidableAligned W tl false (b + W))
      · exact @instDecidableAnd _ _ _ (decidableAligned W tl false b)

/-- Number of iterations of the range-query loop for in-range `start`, `stop`. -/
def queryLen (W start stop : Int) : Nat :=
  if stop < start then 0 else ((stop - start) / W).toNat + 1

/-- Invariant of the scan loop of `loadDataFrom`, relative to the anchor `epoch0` and
to the lines `pre` consumed so far. -/
def ReplayInv (epoch0 : Int) (pre : List String) (st : ReplayState) : Prop :=
  st.maxEpoch = (parsedTimestamps pre).foldl max epoch0 ∧
    tickCount st.calls ≤ 1 + newMaxCount [] (parsedTimestamps pre) ∧
    st.lines = pre.length

/-- Bounds of the window counter of `loadDataFrom` that hold as long as the `int64`
arithmetic of the rotation block does not wrap. -/
def WindowInv (W epoch0 : Int) (st : ReplayState) : Prop :=
  0 ≤ st.window ∧ st.window < W ∧ st.window ≤ st.maxEpoch - epoch0

/-! ## Sample collaborators -/

/-- An estimator that answers every query with the queried epoch itself, and a
top-K history of five buckets whose bucket `i` holds the single key `"a"` for `i = 0`
and `"b"` otherwise. -/
def sampleReads : Reads :=
  { Count := fun _ epoch _ => epoch.toNat
    Len := fun _ => 5
    Keys := fun _ i => if i = 0 then ["a"] else ["b"] }

/-! ## Basic facts -/

theorem wrap64_of_inInt64 {x : Int} (h : InInt64 x) : wrap64 x = x := by
  unfold InInt64 at h
  unfold wrap64
  omega

theorem Atoi_inInt64 {s : String} {v : Int} (h : Atoi s = some v) : InInt64 v := by
  unfold Atoi at h
  unfold InInt64
  split at h
  · simp at h
  · split_ifs at h
    all_goals
      split at h
      · simp at h
      · split_ifs at h
        simp only [Option.some.injEq] at h
        omega

theorem Atoi_empty : Atoi "" = none := by decide

theorem defaultInt_of_Atoi {s : String} {v : Int} (h : Atoi s = some v) (d : Int) :
    defaultInt s d = (v, false) := by
  have hne : s ≠ "" := by
    intro he
    rw [he, Atoi_empty] at h
    simp at h
  simp [defaultInt, hne, h]

theorem defaultInt_empty (d : Int) : defaultInt "" d = (d, false) := by
  simp [defaultInt]

theorem defaultInt_of_Atoi_none {s : String} (hne : s ≠ "") (h : Atoi s = none) (d : Int) :
    defaultInt s d = (0, true) := by
  simp [defaultInt, hne, h]

theorem queryHandler_fails_of_bad_bound (g : Globals) (rd : Reads) (calls : List Call)
    (fuel : Nat) (q startS stopS : String) (start stop : Int)
    (hstart : Atoi startS = some start) (hstop : Atoi stopS = some stop)
    (h : start = 0 ∨ start < g.Epoch0 ∨ stop = 0 ∨ stop < g.Epoch0) :
    queryHandler g rd calls fuel q startS stopS = some (Outcome.badRequest "bad start epoch") ∨
      queryHandler g rd calls fuel q startS stopS =
        some (Outcome.badRequest "bad stop epoch") := by
  have hd1 := defaultInt_of_Atoi hstart 0
  have hd2 := defaultInt_of_Atoi hstop 0
  by_cases h1 : start = 0 ∨ start < g.Epoch0 ∨ false = true
  · left
    simp only [queryHandler, hd1]
    rw [if_pos h1]
  · have h2 : stop = 0 ∨ stop < g.Epoch0 ∨ false = true := by
      simp only [Bool.false_eq_true, or_false] at h1 ⊢
      omega
    right
    simp only [queryHandler, hd1, hd2]
    rw [if_neg h1, if_pos h2]

theorem topkHandler_fails_of_bad_epoch (g : Globals) (rd : Reads) (calls : List Call)
    (epochS : String) (epoch : Int) (hparse : Atoi epochS = some epoch)
    (h : epoch < 0 ∨ epoch < g.Epoch0) :
    topkHandler g rd calls epochS = Outcome.badRequest "bad epoch" := by
  have hd := defaultInt_of_Atoi hparse (-1)
  simp only [topkHandler, hd]
  rw [if_pos]
  rcases h with h | h
  · exact Or.inl h
  · exact Or.inr (Or.inl h)

theorem toUint32_of_range {c : Int} (h0 : 0 ≤ c) (h1 : c < 4294967296) :
    toUint32 c = c.toNat := by
  unfold toUint32
  rw [Int.emod_eq_of_lt h0 h1]

theorem rotate_of_le {W topks : Int} {st : ReplayState} {t : Int} (h : t ≤ st.maxEpoch) :
    rotate W topks st t = st := by
  have hn : ¬ t > st.maxEpoch := by omega
  simp [rotate, hn]

theorem rotate_of_gt {W topks : Int} {st : ReplayState} {t : Int} (h : st.maxEpoch < t)
    (h1 : InInt64 (t - st.maxEpoch)) (h2 : InInt64 (st.window + (t - st.maxEpoch))) :
    rotate W topks st t =
      if W ≤ st.window + (t - st.maxEpoch) then
        { st with maxEpoch := t, window := 0, calls := st.calls ++ [Call.topkTick topks] }
      else
        { st with maxEpoch := t, window := st.window + (t - st.maxEpoch) } := by
  have hg : t > st.maxEpoch := h
  simp only [rotate, hg, if_true, wrap64_of_inInt64 h1, wrap64_of_inInt64 h2, ge_iff_le]

theorem processLine_of_bad_timestamp {W topks : Int} {st : ReplayState} {line f0 : String}
    {rest : List String} (hsplit : Split line = f0 :: rest) (ht : Atoi f0 = none) :
    processLine W topks st line = LineResult.next { st with lines := st.lines + 1 } := by
  simp [processLine, hsplit, ht]

theorem processLine_of_bad_count {W topks : Int} {st : ReplayState} {line f0 k f2 : String}
    {t : Int} (hsplit : Split line = [f0, k, f2]) (ht : Atoi f0 = some t)
    (hc : Atoi f2 = none) :
    processLine W topks st line =
      LineResult.next (rotate W topks { st with lines := st.lines + 1 } t) := by
  simp [processLine, hsplit, ht, hc]

theorem processLine_of_three_fields {W topks : Int} {st : ReplayState}
    {line f0 k f2 : String} {t w : Int} (hsplit : Split line = [f0, k, f2])
    (ht : Atoi f0 = some t) (hc : Atoi f2 = some w) :
    processLine W topks st line =
      LineResult.next
        { rotate W topks { st with lines := st.lines + 1 } t with
          calls := (rotate W topks { st with lines := st.lines + 1 } t).calls ++
            [Call.sketchAdd t k (toUint32 w), Call.topkInsert k (toUint32 w : Nat)] } := by
  simp [processLine, hsplit, ht, hc, hoku.Add]

/-! ## C9: anchor epoch in live mode -/

/-- C9. In live mode `Epoch0 = now - (now % WindowSize)`: for every `now ≥ 0` (an
`int64`) and positive window size `W`, the assignment succeeds with
`Epoch0 = now - now mod W`, `Epoch0 mod W = 0`, `Epoch0 ≤ now < Epoch0 + W`, and the
bucket index of `now` is 0. -/
theorem liveEpoch0_rounds_down (now W : Int) (hnow : 0 ≤ now)
    (hrange : now < 9223372036854775808) (hW : 0 < W) :
    ∃ e, liveEpoch0 now W = some e ∧ e = now - now % W ∧ e % W = 0 ∧
      e ≤ now ∧ now < e + W ∧ bucketIndex ⟨e, W⟩ now = 0 := by
  have hm0 : 0 ≤ now % W := Int.emod_nonneg now (by omega)
  have hm1 : now % W < W := Int.emod_lt_of_pos now hW
  have hm2 : now % W ≤ now := by
    have h1 := Int.emod_add_ediv now W
    have h2 : 0 ≤ now / W := Int.ediv_nonneg hnow (by omega)
    have h3 : 0 ≤ W * (now / W) := Int.mul_nonneg (by omega) h2
    omega
  have htm : Int.tmod now W = now % W := Int.tmod_eq_emod hnow (by omega)
  have hw : wrap64 (now - now % W) = now - now % W :=
    wrap64_of_inInt64 (by unfold InInt64; omega)
  refine ⟨now - now % W, ?_, rfl, ?_, by omega, by omega, ?_⟩
  · simp [liveEpoch0, htm, hw]; omega
  · exact Int.emod_eq_zero_of_dvd (Int.dvd_sub_of_emod_eq rfl)
  · have h1 : now - (now - now % W) = now % W := by omega
    have h2 : wrap64 (now % W) = now % W := wrap64_of_inInt64 (by unfold InInt64; omega)
    have h3 : Int.tdiv (now % W) W = 0 := by
      rw [Int.tdiv_eq_ediv hm0 (by omega)]
      exact Int.ediv_eq_zero_of_lt hm0 hm1
    simp only [bucketIndex, h1, h2, h3]
    decide

/-- Witness of C9 at `now = 1730714405`, `W = 60`: `Epoch0 = 1730714400`. -/
theorem liveEpoch0_rounds_down_witness :
    liveEpoch0 1730714405 60 = some 1730714400 ∧
      bucketIndex ⟨1730714400, 60⟩ 1730714405 = 0 := by
  obtain ⟨e, h1, h2, _, _, _, h6⟩ :=
    liveEpoch0_rounds_down 1730714405 60 (by decide) (by decide) (by decide)
  have he : e = 1730714400 := by rw [h2]; decide
  rw [he] at h1 h6
  exact ⟨h1, h6⟩

/-! ## C3: top-K query -/

/-- C3, counterexample. With `Epoch0 = -100`, `WindowSize = 60` and five retained
buckets, the epoch `-50` is not below `Epoch0` and its bucket index `0` is inside
the history, yet `topkHandler` answers "bad epoch" instead of `Keys(0)`. -/
theorem topkHandler_rejects_negative_epoch :
    Atoi "-50" = some (-50) ∧ ¬ ((-50 : Int) < (⟨-100, 60⟩ : Globals).Epoch0) ∧
      (-50 - (-100) : Int) / 60 = 0 ∧ (0 : Int) < sampleReads.Len [] ∧
      topkHandler ⟨-100, 60⟩ sampleReads [] "-50" = Outcome.badRequest "bad epoch" ∧
      topkHandler ⟨-100, 60⟩ sampleReads [] "-50" ≠ Outcome.ok (sampleReads.Keys [] 0) := by
  decide

/-- C3, amended. For an `epoch` value that parses to `epoch`, with positive
`WindowSize`: `topkHandler` fails with "bad epoch" when `epoch < 0` or
`epoch < Epoch0`; otherwise, when `epoch - Epoch0` fits in `int64` (always so for
`Epoch0 ≥ 0`), the computed index equals `floor((epoch - Epoch0) / WindowSize)`, is
not negative, and the handler fails with "bad epoch" when the index is `≥ Len` and
returns `Keys(index)` in every remaining case. -/
theorem topkHandler_spec (g : Globals) (rd : Reads) (calls : List Call) (epochS : String)
    (epoch : Int) (hparse : Atoi epochS = some epoch) (hW : 0 < g.WindowSize) :
    ((epoch < 0 ∨ epoch < g.Epoch0) →
        topkHandler g rd calls epochS = Outcome.badRequest "bad epoch") ∧
    (0 ≤ epoch → g.Epoch0 ≤ epoch → epoch - g.Epoch0 < 9223372036854775808 →
      bucketIndex g epoch = (epoch - g.Epoch0) / g.WindowSize ∧
      0 ≤ bucketIndex g epoch ∧
      (rd.Len calls ≤ bucketIndex g epoch →
        topkHandler g rd calls epochS = Outcome.badRequest "bad epoch") ∧
      (bucketIndex g epoch < rd.Len calls →
        topkHandler g rd calls epochS = Outcome.ok (rd.Keys calls (bucketIndex g epoch)))) := by
  have hd := defaultInt_of_Atoi hparse (-1)
  constructor
  · exact topkHandler_fails_of_bad_epoch g rd calls epochS epoch hparse
  · intro h0 h1 h2
    have hd0 : 0 ≤ epoch - g.Epoch0 := by omega
    have hw : wrap64 (epoch - g.Epoch0) = epoch - g.Epoch0 :=
      wrap64_of_inInt64 (by unfold InInt64; omega)
    have hq0 : 0 ≤ (epoch - g.Epoch0) / g.WindowSize := Int.ediv_nonneg hd0 (by omega)
    have hq1 : (epoch - g.Epoch0) / g.WindowSize ≤ epoch - g.Epoch0 := by
      have h3 := Int.emod_add_ediv (epoch - g.Epoch0) g.WindowSize
      have h4 : 0 ≤ (epoch - g.Epoch0) % g.WindowSize := Int.emod_nonneg _ (by omega)
      have h5 : (epoch - g.Epoch0) / g.WindowSize ≤
          g.WindowSize * ((epoch - g.Epoch0) / g.WindowSize) := by
        have h6 : 1 * ((epoch - g.Epoch0) / g.WindowSize) ≤
            g.WindowSize * ((epoch - g.Epoch0) / g.WindowSize) :=
          Int.mul_le_mul_of_nonneg_right (by omega) hq0
        omega
      omega
    have hb : bucketIndex g epoch = (epoch - g.Epoch0) / g.WindowSize := by
      simp only [bucketIndex, hw]
      rw [Int.tdiv_eq_ediv hd0 (by omega)]
      exact wrap64_of_inInt64 (by unfold InInt64; omega)
    have hWne : g.WindowSize ≠ 0 := by omega
    have hguard : ¬ (epoch < 0 ∨ epoch < g.Epoch0 ∨ false = true) := by
      simp only [Bool.false_eq_true, or_false]; omega
    refine ⟨hb, by omega, ?_, ?_⟩
    · intro hlen
      simp only [topkHandler, hd]
      rw [if_neg hguard, if_neg hWne, if_pos]
      exact Or.inr hlen
    · intro hlen
      simp only [topkHandler, hd]
      rw [if_neg hguard, if_neg hWne, if_neg]
      omega

/-- Witness of the amended C3 at `Epoch0 = 1000`, `WindowSize = 60`, `epoch = 1090`
(bucket 1 of five). -/
theorem topkHandler_spec_witness :
    bucketIndex ⟨1000, 60⟩ 1090 = 1 ∧
      topkHandler ⟨1000, 60⟩ sampleReads [] "1090" = Outcome.ok ["b"] := by
  have h := (topkHandler_spec ⟨1000, 60⟩ sampleReads [] "1090" 1090 (by decide) (by decide)).2
    (by decide) (by decide) (by decide)
  refine ⟨by decide, ?_⟩
  have h4 := h.2.2.2 (by decide)
  rw [h4]
  decide

/-! ## C2: range query -/

theorem queryLen_of_gt {W t stop : Int} (h : stop < t) : queryLen W t stop = 0 := by
  simp [queryLen, h]

theorem queryLen_step {W t stop : Int} (hW : 0 < W) (h : t ≤ stop) :
    queryLen W t stop = queryLen W (t + W) stop + 1 := by
  have hnot : ¬ stop < t := by omega
  by_cases h2 : stop < t + W
  · have hq : (stop - t) / W = 0 := Int.ediv_eq_zero_of_lt (by omega) (by omega)
    simp [queryLen, hnot, h2, hq]
  · have hq : (stop - t) / W = (stop - (t + W)) / W + 1 := by
      have h3 : stop - t = (stop - (t + W)) + 1 * W := by ring
      rw [h3, Int.add_mul_ediv_right _ _ (by omega : W ≠ 0)]
    have hq0 : 0 ≤ (stop - (t + W)) / W := Int.ediv_nonneg (by omega) (by omega)
    simp only [queryLen, hnot, h2, if_false, hq]
    omega

theorem queryLoop_eq (rd : Reads) (calls : List Call) (q : String) (W stop : Int)
    (hW : 0 < W) :
    ∀ (fuel : Nat) (t : Int) (acc : List Nat),
      -9223372036854775808 ≤ t → (t ≤ stop → stop + W < 9223372036854775808) →
      queryLen W t stop ≤ fuel →
      queryLoop rd calls q W stop fuel t acc =
        some (acc ++ (List.range (queryLen W t stop)).map
          (fun (i : Nat) => hoku.Count rd calls (t + (i : Int) * W) q)) := by
  intro fuel
  induction fuel with
  | zero =>
    intro t acc _ _ hlen
    by_cases h : t ≤ stop
    · rw [queryLen_step hW h] at hlen
      omega
    · have hz : queryLen W t stop = 0 := queryLen_of_gt (by omega)
      simp [queryLoop, h, hz]
  | succ n ih =>
    intro t acc ht hs hlen
    by_cases h : t ≤ stop
    · have hstep := queryLen_step hW h
      have hb := hs h
      have hw : wrap64 (t + W) = t + W := wrap64_of_inInt64 (by unfold InInt64; omega)
      have hrec := ih (t + W) (acc ++ [hoku.Count rd calls t q]) (by omega)
        (fun _ => hb) (by omega)
      simp only [queryLoop, h, if_true, hw, hrec, hstep, List.range_succ_eq_map,
        List.map_cons, List.map_map, List.append_assoc, List.singleton_append]
      congr 2
      simp only [CharP.cast_eq_zero, zero_mul, add_zero, List.cons.injEq, List.map_inj_left,
        Function.comp, Nat.succ_eq_add_one, Nat.cast_add, Nat.cast_one, true_and]
      intro i _
      congr 1
      ring
    · have hz : queryLen W t stop = 0 := queryLen_of_gt (by omega)
      simp [queryLoop, h, hz]

/-- C2, counterexample. With `Epoch0 = 0` (the default anchor of replay mode) and
`WindowSize = 60`, the query `start = 0`, `stop = 120` has both bounds `≥ Epoch0`,
yet `queryHandler` fails with "bad start epoch" instead of returning three counts. -/
theorem queryHandler_rejects_zero_start :
    Atoi "0" = some 0 ∧ Atoi "120" = some 120 ∧
      (0 : Int) ≥ (⟨0, 60⟩ : Globals).Epoch0 ∧ (120 : Int) ≥ (⟨0, 60⟩ : Globals).Epoch0 ∧
      queryHandler ⟨0, 60⟩ sampleReads [] 10 "x" "0" "120" =
        some (Outcome.badRequest "bad start epoch") := by
  decide

/-- C2, amended. For `start` and `stop` values that parse to `start` and `stop`,
with positive `WindowSize`: `queryHandler` fails when `start` or `stop` is `0` or
below `Epoch0`; for non-zero `start ≥ Epoch0` and `stop ≥ Epoch0` (with
`stop + WindowSize` inside `int64` when `start ≤ stop`) it succeeds, for every
sufficient loop budget, with exactly the list
`[Count(start + i * WindowSize, q) | i = 0 .. floor((stop - start) / WindowSize)]` in
that order, which is empty exactly when `start > stop`. -/
theorem queryHandler_spec (g : Globals) (rd : Reads) (calls : List Call)
    (q startS stopS : String) (start stop : Int)
    (hstart : Atoi startS = some start) (hstop : Atoi stopS = some stop)
    (hW : 0 < g.WindowSize) :
    ((start = 0 ∨ start < g.Epoch0 ∨ stop = 0 ∨ stop < g.Epoch0) →
      ∀ fuel,
        queryHandler g rd calls fuel q startS stopS =
            some (Outcome.badRequest "bad start epoch") ∨
          queryHandler g rd calls fuel q startS stopS =
            some (Outcome.badRequest "bad stop epoch")) ∧
    (start ≠ 0 → g.Epoch0 ≤ start → stop ≠ 0 → g.Epoch0 ≤ stop →
      (start ≤ stop → stop + g.WindowSize < 9223372036854775808) →
      (∀ fuel, queryLen g.WindowSize start stop ≤ fuel →
        queryHandler g rd calls fuel q startS stopS =
          some (Outcome.ok
            { Query := q, Start := start, Step := g.WindowSize,
              Counts := (List.range (queryLen g.WindowSize start stop)).map
                (fun (i : Nat) => hoku.Count rd calls (start + (i : Int) * g.WindowSize) q) })) ∧
      (queryLen g.WindowSize start stop = 0 ↔ stop < start) ∧
      (start ≤ stop →
        (queryLen g.WindowSize start stop : Int) = (stop - start) / g.WindowSize + 1)) := by
  have hd1 := defaultInt_of_Atoi hstart 0
  have hd2 := defaultInt_of_Atoi hstop 0
  have hr1 := Atoi_inInt64 hstart
  constructor
  · intro h fuel
    exact queryHandler_fails_of_bad_bound g rd calls fuel q startS stopS start stop hstart hstop h
  · intro h1 h2 h3 h4 h5
    have hg1 : ¬ (start = 0 ∨ start < g.Epoch0 ∨ false = true) := by
      simp only [Bool.false_eq_true, or_false]; omega
    have hg2 : ¬ (stop = 0 ∨ stop < g.Epoch0 ∨ false = true) := by
      simp only [Bool.false_eq_true, or_false]; omega
    refine ⟨?_, ?_, ?_⟩
    · intro fuel hfuel
      have hloop := queryLoop_eq rd calls q g.WindowSize stop hW fuel start []
        (by unfold InInt64 at hr1; omega) h5 hfuel
      simp only [queryHandler, hd1, hd2]
      rw [if_neg hg1, if_neg hg2, hloop]
      simp
    · constructor
      · intro hz
        by_contra hc
        simp [queryLen, hc] at hz
      · intro hlt
        exact queryLen_of_gt hlt
    · intro hle
      have hq0 : 0 ≤ (stop - start) / g.WindowSize := Int.ediv_nonneg (by omega) (by omega)
      have hnot : ¬ stop < start := by omega
      simp only [queryLen, hnot, if_false]
      omega

/-- Witness of the amended C2: with `Epoch0 = 1000` and `WindowSize = 60`, the range
`1000 .. 1120` yields the three counts of `1000`, `1060`, `1120` in that order, and
the range `1200 .. 1000` yields the empty list without error. -/
theorem queryHandler_spec_witness :
    queryHandler ⟨1000, 60⟩ sampleReads [] 3 "x" "1000" "1120" =
        some (Outcome.ok ⟨"x", 1000, 60, [1000, 1060, 1120]⟩) ∧
      queryHandler ⟨1000, 60⟩ sampleReads [] 0 "x" "1200" "1000" =
        some (Outcome.ok ⟨"x", 1200, 60, []⟩) := by
  have h1 := ((queryHandler_spec ⟨1000, 60⟩ sampleReads [] "x" "1000" "1120" 1000 1120
    (by decide) (by decide) (by decide)).2 (by decide) (by decide) (by decide) (by decide)
    (by decide)).1 3 (by decide)
  have h2 := ((queryHandler_spec ⟨1000, 60⟩ sampleReads [] "x" "1200" "1000" 1200 1000
    (by decide) (by decide) (by decide)).2 (by decide) (by decide) (by decide) (by decide)
    (by decide)).1 0 (by decide)
  refine ⟨?_, ?_⟩
  · rw [h1]; decide
  · rw [h2]; decide

/-! ## C1: timestamps below the anchor epoch -/

/-- C1, counterexample. With `Epoch0 = 1000`, the timestamp `999` is below the
anchor, yet `hoku.Add` forwards the write to the estimator, the `/add` request
`item=x&count=3&t=999` is answered `Ok 999` after `Add(999, "x", 3)` and
`Insert("x", 3)`, and `hoku.Count` returns the estimator's answer. -/
theorem add_below_anchor_is_forwarded :
    (999 : Int) < (⟨1000, 60⟩ : Globals).Epoch0 ∧
      hoku.Add [] 999 "x" 3 = [Call.sketchAdd 999 "x" 3] ∧
      addHandler 5000 [] "x" "3" "999" =
        Outcome.ok (999, [Call.sketchAdd 999 "x" 3, Call.topkInsert "x" 3]) ∧
      hoku.Count sampleReads [] 999 "x" = sampleReads.Count [] 999 "x" := by
  decide

/-- C1, amended. `hoku.Add` and `hoku.Count` have no failure: for every timestamp
(also below `Epoch0`), key and weight, `Add` forwards exactly one
`Add(timestamp, key, weight)` to the estimator and `Count` returns the estimator's
answer. Timestamps below `Epoch0` are rejected by the query handlers instead:
`queryHandler` fails when `start` or `stop` is below `Epoch0`, and `topkHandler`
fails when `epoch` is below `Epoch0`. -/
theorem hoku_total_handlers_guard (g : Globals) (rd : Reads) (calls : List Call) :
    (∀ (epoch : Int) (x : String) (count : Nat),
      hoku.Add calls epoch x count = calls ++ [Call.sketchAdd epoch x count]) ∧
    (∀ (epoch : Int) (x : String), hoku.Count rd calls epoch x = rd.Count calls epoch x) ∧
    (∀ (fuel : Nat) (q startS stopS : String) (start stop : Int),
      Atoi startS = some start → Atoi stopS = some stop →
      (start < g.Epoch0 ∨ stop < g.Epoch0) →
      (queryHandler g rd calls fuel q startS stopS =
          some (Outcome.badRequest "bad start epoch") ∨
        queryHandler g rd calls fuel q startS stopS =
          some (Outcome.badRequest "bad stop epoch"))) ∧
    (∀ (epochS : String) (epoch : Int), Atoi epochS = some epoch → epoch < g.Epoch0 →
      topkHandler g rd calls epochS = Outcome.badRequest "bad epoch") := by
  refine ⟨fun _ _ _ => rfl, fun _ _ => rfl, ?_, ?_⟩
  · intro fuel q startS stopS start stop h1 h2 h
    apply queryHandler_fails_of_bad_bound g rd calls fuel q startS stopS start stop h1 h2
    rcases h with h | h
    · exact Or.inr (Or.inl h)
    · exact Or.inr (Or.inr (Or.inr h))
  · intro epochS epoch h1 h
    exact topkHandler_fails_of_bad_epoch g rd calls epochS epoch h1 (Or.inr h)

/-- Witness of the amended C1 at `Epoch0 = 1000`: the range query starting at `999`
and the top-K query at `999` are rejected. -/
theorem hoku_total_handlers_guard_witness :
    (queryHandler ⟨1000, 60⟩ sampleReads [] 5 "x" "999" "1120" =
          some (Outcome.badRequest "bad start epoch") ∨
        queryHandler ⟨1000, 60⟩ sampleReads [] 5 "x" "999" "1120" =
          some (Outcome.badRequest "bad stop epoch")) ∧
      topkHandler ⟨1000, 60⟩ sampleReads [] "999" = Outcome.badRequest "bad epoch" :=
  ⟨(hoku_total_handlers_guard ⟨1000, 60⟩ sampleReads []).2.2.1 5 "x" "999" "1120" 999 1120
      (by decide) (by decide) (by decide),
    (hoku_total_handlers_guard ⟨1000, 60⟩ sampleReads []).2.2.2 "999" 999
      (by decide) (by decide)⟩

/-! ## C8: event weight -/

/-- C8, counterexample. The `/add` request `item=x&count=-1&t=2000` is not rejected:
it is answered `Ok 2000` after `Add(2000, "x", 4294967295)` and `Insert("x", -1)`. -/
theorem addHandler_accepts_negative_count :
    Atoi "-1" = some (-1) ∧
      addHandler 5000 [] "x" "-1" "2000" =
        Outcome.ok (2000, [Call.sketchAdd 2000 "x" 4294967295, Call.topkInsert "x" (-1)]) := by
  decide

/-- C8, amended. For an `/add` request whose `t` value is accepted (`targ` is its
value, `0` standing for "now"): an omitted count yields weight 1; a count that
parses to `c` with `0 ≤ c < 2^32` yields `Add(epoch, item, c)` and `Insert(item, c)`
with the same `c`; and a non-empty count that does not parse as an integer is
rejected with "bad count", whatever `t` is, with no `Add` and no `Insert`. -/
theorem addHandler_weight (now : Int) (calls : List Call) (item countS tS : String)
    (targ : Int) (ht : defaultInt tS 0 = (targ, false)) :
    (countS = "" →
      addHandler now calls item countS tS =
        Outcome.ok (if targ = 0 then now else targ,
          calls ++ [Call.sketchAdd (if targ = 0 then now else targ) item 1,
            Call.topkInsert item 1])) ∧
    (∀ c : Int, Atoi countS = some c → 0 ≤ c → c < 4294967296 →
      addHandler now calls item countS tS =
        Outcome.ok (if targ = 0 then now else targ,
          calls ++ [Call.sketchAdd (if targ = 0 then now else targ) item c.toNat,
            Call.topkInsert item c])) ∧
    (countS ≠ "" → Atoi countS = none →
      ∀ tS1 : String, addHandler now calls item countS tS1 = Outcome.badRequest "bad count") := by
  refine ⟨?_, ?_, ?_⟩
  · intro h
    subst h
    have hu : toUint32 1 = 1 := by decide
    simp [addHandler, defaultInt_empty, ht, hoku.Add, hu]
  · intro c hc h0 h1
    have hd := defaultInt_of_Atoi hc 1
    have hu : toUint32 c = c.toNat := by
      unfold toUint32
      rw [Int.emod_eq_of_lt h0 h1]
    simp [addHandler, hd, ht, hoku.Add, hu]
  · intro hne hnone tS1
    simp [addHandler, defaultInt_of_Atoi_none hne hnone]

/-- Witness of the amended C8: `count=5&t=2000` gives `Add(2000, "x", 5)` and
`Insert("x", 5)`. -/
theorem addHandler_weight_witness :
    addHandler 5000 [] "x" "5" "2000" =
      Outcome.ok (2000, [Call.sketchAdd 2000 "x" 5, Call.topkInsert "x" 5]) := by
  have h := (addHandler_weight 5000 [] "x" "5" "2000" 2000 (by decide)).2.1 5
    (by decide) (by decide) (by decide)
  rw [h]
  decide

theorem processLine_of_two_fields {W topks : Int} {st : ReplayState}
    {line f0 k : String} {t : Int} (hsplit : Split line = [f0, k])
    (ht : Atoi f0 = some t) :
    processLine W topks st line =
      LineResult.next
        { rotate W topks { st with lines := st.lines + 1 } t with
          calls := (rotate W topks { st with lines := st.lines + 1 } t).calls ++
            [Call.sketchAdd t k 1, Call.topkInsert k 1] } := by
  simp [processLine, hsplit, ht, hoku.Add]

theorem processLine_of_record {W topks : Int} {st : ReplayState} {line : String}
    {ev : Event} (hrec : IsRecord line ev) (hw : WeightInRange ev) :
    processLine W topks st line =
      LineResult.next
        { rotate W topks { st with lines := st.lines + 1 } ev.timestamp with
          calls := (rotate W topks { st with lines := st.lines + 1 } ev.timestamp).calls ++
            [Call.sketchAdd ev.timestamp ev.key ev.weight.toNat,
              Call.topkInsert ev.key ev.weight] } := by
  obtain ⟨hw0, hw1⟩ := hw
  unfold IsRecord at hrec
  split at hrec
  · rename_i f0 k f2 hsplit
    obtain ⟨ht, hk, hc⟩ := hrec
    rw [processLine_of_three_fields hsplit ht hc, toUint32_of_range hw0 hw1,
      Int.toNat_of_nonneg hw0, hk]
  · rename_i f0 k hsplit
    obtain ⟨ht, hk, hc⟩ := hrec
    rw [processLine_of_two_fields hsplit ht, hk, hc]
    rfl
  · exact absurd hrec id

/-! ## C4: replay step on a well-formed record -/

/-- C4, counterexample. From `maxEpoch = 1000`, `window = 0` with `WindowSize = 60`,
the record `"2000\tapple\t4294967296"` (timestamp, key and a non-negative integer
weight) leads to `Add(2000, "apple", 0)` and `Insert("apple", 0)`, not to an `Add`
and an `Insert` of weight `4294967296`. -/
theorem processLine_truncates_weight :
    Split "2000\tapple\t4294967296" = ["2000", "apple", "4294967296"] ∧
      Atoi "2000" = some 2000 ∧ Atoi "4294967296" = some 4294967296 ∧
      processLine 60 100 ⟨[], 1000, 0, 0⟩ "2000\tapple\t4294967296" =
        LineResult.next ⟨[Call.topkTick 100, Call.sketchAdd 2000 "apple" 0,
          Call.topkInsert "apple" 0], 2000, 0, 1⟩ := by
  decide

/-- C4, amended. Processing a record of the event `(t, k, w)` (timestamp field, key
field, and either a weight field or, for `w = 1`, no third field) with
`0 ≤ w < 2^32`, from a state with `maxEpoch = m`, `window = e` in which `t - m` and
`e + (t - m)` fit in `int64` whenever `t > m`: if `t > m` and `e + (t - m) ≥ W`, then
`maxEpoch` becomes `t`, `window` becomes 0 and exactly one `Tick` is issued; if
`t > m` and `e + (t - m) < W`, then `maxEpoch` becomes `t`, `window` becomes
`e + (t - m)` and no `Tick` is issued; if `t ≤ m`, `maxEpoch` and `window` are
unchanged and no `Tick` is issued. In every case exactly one `Add(t, k, w)` and then
one `Insert(k, w)` follow and the scan goes on with the next line. -/
theorem processLine_wellFormed (W topks : Int) (st : ReplayState) (line k : String)
    (t w : Int) (hrec : IsRecord line ⟨t, k, w⟩) (hw0 : 0 ≤ w) (hw1 : w < 4294967296)
    (hno : st.maxEpoch < t →
      InInt64 (t - st.maxEpoch) ∧ InInt64 (st.window + (t - st.maxEpoch))) :
    (st.maxEpoch < t → W ≤ st.window + (t - st.maxEpoch) →
      processLine W topks st line =
        LineResult.next
          ⟨st.calls ++ [Call.topkTick topks, Call.sketchAdd t k w.toNat, Call.topkInsert k w],
            t, 0, st.lines + 1⟩) ∧
    (st.maxEpoch < t → st.window + (t - st.maxEpoch) < W →
      processLine W topks st line =
        LineResult.next
          ⟨st.calls ++ [Call.sketchAdd t k w.toNat, Call.topkInsert k w],
            t, st.window + (t - st.maxEpoch), st.lines + 1⟩) ∧
    (t ≤ st.maxEpoch →
      processLine W topks st line =
        LineResult.next
          ⟨st.calls ++ [Call.sketchAdd t k w.toNat, Call.topkInsert k w],
            st.maxEpoch, st.window, st.lines + 1⟩) := by
  have hp := @processLine_of_record W topks st line ⟨t, k, w⟩ hrec ⟨hw0, hw1⟩
  simp only at hp
  refine ⟨?_, ?_, ?_⟩
  · intro hgt hge
    obtain ⟨h1, h2⟩ := hno hgt
    have hr := @rotate_of_gt W topks { st with lines := st.lines + 1 } t hgt h1 h2
    simp only [if_pos hge] at hr
    rw [hp, hr]
    simp
  · intro hgt hlt
    obtain ⟨h1, h2⟩ := hno hgt
    have hr := @rotate_of_gt W topks { st with lines := st.lines + 1 } t hgt h1 h2
    have hn : ¬ W ≤ st.window + (t - st.maxEpoch) := by omega
    simp only [if_neg hn] at hr
    rw [hp, hr]
  · intro hle
    have hr := @rotate_of_le W topks { st with lines := st.lines + 1 } t hle
    rw [hp, hr]

/-- Witness of the amended C4: from `maxEpoch = 1000`, `window = 0`, `WindowSize = 60`,
the record `"2000\tapple\t5"` spans sixteen windows and fires one `Tick`, followed
by `Add(2000, "apple", 5)` and `Insert("apple", 5)`; the two-field record
`"1030\tpear"` fires no `Tick` and applies the default weight 1. -/
theorem processLine_wellFormed_witness :
    processLine 60 100 ⟨[], 1000, 0, 0⟩ "2000\tapple\t5" =
        LineResult.next ⟨[Call.topkTick 100, Call.sketchAdd 2000 "apple" 5,
          Call.topkInsert "apple" 5], 2000, 0, 1⟩ ∧
      processLine 60 100 ⟨[], 1000, 0, 0⟩ "1030\tpear" =
        LineResult.next ⟨[Call.sketchAdd 1030 "pear" 1, Call.topkInsert "pear" 1],
          1030, 30, 1⟩ :=
  ⟨(processLine_wellFormed 60 100 ⟨[], 1000, 0, 0⟩ "2000\tapple\t5" "apple" 2000 5
      (by decide) (by decide) (by decide) (fun _ => ⟨by decide, by decide⟩)).1
      (by decide) (by decide),
    (processLine_wellFormed 60 100 ⟨[], 1000, 0, 0⟩ "1030\tpear" "pear" 1030 1
      (by decide) (by decide) (by decide) (fun _ => ⟨by decide, by decide⟩)).2.1
      (by decide) (by decide)⟩

/-! ## C5: skipped records -/

/-- C5, counterexample. From `maxEpoch = 1000`, `window = 0` with `WindowSize = 60`,
the record `"5000\tapple\tbad"`, whose count does not parse, is skipped without
`Add` or `Insert`, but `maxEpoch` becomes `5000` and one `Tick` is issued. -/
theorem bad_count_still_rotates :
    Split "5000\tapple\tbad" = ["5000", "apple", "bad"] ∧ Atoi "bad" = none ∧
      processLine 60 100 ⟨[], 1000, 0, 0⟩ "5000\tapple\tbad" =
        LineResult.next ⟨[Call.topkTick 100], 5000, 0, 1⟩ := by
  decide

/-- C5, amended. A record whose timestamp field does not parse is skipped: no call
is issued and `maxEpoch` and `window` are unchanged (for instance `"bad\tapple"`). A
three-field record whose timestamp parses to `t` and whose count does not parse is
skipped after the rotation block has run for `t`: no `Add` and no `Insert` is
issued, and the calls issued are at most one `Tick`. The well-formed record
`"2000\tapple\t5"` applies `Add(2000, "apple", 5)`. -/
theorem processLine_skips (W topks : Int) (st : ReplayState) :
    (∀ (line f0 : String) (rest : List String), Split line = f0 :: rest → Atoi f0 = none →
      processLine W topks st line =
        LineResult.next ⟨st.calls, st.maxEpoch, st.window, st.lines + 1⟩) ∧
    (∀ (line f0 k f2 : String) (t : Int), Split line = [f0, k, f2] → Atoi f0 = some t →
      Atoi f2 = none →
      processLine W topks st line =
          LineResult.next (rotate W topks { st with lines := st.lines + 1 } t) ∧
        ((processLine W topks st line).state.calls = st.calls ∨
          (processLine W topks st line).state.calls = st.calls ++ [Call.topkTick topks])) ∧
    processLine W topks st "bad\tapple" =
      LineResult.next ⟨st.calls, st.maxEpoch, st.window, st.lines + 1⟩ ∧
    (processLine W topks st "2000\tapple\t5").state.calls =
      (rotate W topks { st with lines := st.lines + 1 } 2000).calls ++
        [Call.sketchAdd 2000 "apple" 5, Call.topkInsert "apple" 5] := by
  refine ⟨?_, ?_, ?_, ?_⟩
  · intro line f0 rest hsplit ht
    exact processLine_of_bad_timestamp hsplit ht
  · intro line f0 k f2 t hsplit ht hc
    have hp := @processLine_of_bad_count W topks st line f0 k f2 t hsplit ht hc
    refine ⟨hp, ?_⟩
    rw [hp]
    simp only [LineResult.state, rotate]
    split_ifs
    · right; rfl
    · left; rfl
    · left; rfl
  · exact @processLine_of_bad_timestamp W topks st "bad\tapple" "bad" ["apple"]
      (by decide) (by decide)
  · rw [@processLine_of_three_fields W topks st "2000\tapple\t5" "2000" "apple" "5" 2000 5
      (by decide) (by decide) (by decide)]
    have hu : toUint32 5 = 5 := by decide
    simp only [LineResult.state, hu]
    rfl

/-- Witness of the amended C5 at `maxEpoch = 1000`, `window = 10`, `WindowSize = 60`:
`"bad\tapple"` changes nothing but the line counter, and `"1020\tapple\tbad"` only
advances the rotation state. -/
theorem processLine_skips_witness :
    processLine 60 100 ⟨[], 1000, 10, 0⟩ "bad\tapple" = LineResult.next ⟨[], 1000, 10, 1⟩ ∧
      processLine 60 100 ⟨[], 1000, 10, 0⟩ "1020\tapple\tbad" =
        LineResult.next ⟨[], 1020, 30, 1⟩ := by
  have h := processLine_skips 60 100 ⟨[], 1000, 10, 0⟩
  refine ⟨h.2.2.1, ?_⟩
  rw [(h.2.1 "1020\tapple\tbad" "1020" "apple" "bad" 1020 (by decide) (by decide)
    (by decide)).1]
  decide

/-! ## C6: a record without key field -/

/-- C6, failing input. The line `"2000"` has a parseable timestamp and no key
field: `fields[1]` is indexed out of range and the run panics (after the rotation
block has already run), so the following line of the file is never processed. -/
theorem processLine_panics_without_key :
    Split "2000" = ["2000"] ∧ Atoi "2000" = some 2000 ∧
      processLine 60 100 (replayInit 0 100) "2000" =
        LineResult.panic ⟨[Call.topkTick 100, Call.topkTick 100], 2000, 0, 1⟩
          "runtime error: index out of range [1] with length 1" ∧
      scannerLines "2000\n2001\tapple\t5\n" = ["2000", "2001\tapple\t5"] ∧
      loadDataFrom 60 0 100 "2000\n2001\tapple\t5\n" =
        LineResult.panic ⟨[Call.topkTick 100, Call.topkTick 100], 2000, 0, 1⟩
          "runtime error: index out of range [1] with length 1" := by
  decide

/-! ## C10: replay-state invariant -/

theorem processLine_state_of_no_timestamp {W topks : Int} {st : ReplayState} {line : String}
    (h : timestampOf line = none) :
    (processLine W topks st line).state = { st with lines := st.lines + 1 } := by
  unfold timestampOf at h
  unfold processLine
  split at h
  · rename_i hs
    simp [hs, LineResult.state]
  · rename_i f0 rest hs
    simp [hs, h, LineResult.state]

theorem processLine_state_of_timestamp {W topks : Int} {st : ReplayState} {line : String}
    {t : Int} (h : timestampOf line = some t) :
    (processLine W topks st line).state.maxEpoch =
        (rotate W topks { st with lines := st.lines + 1 } t).maxEpoch ∧
      (processLine W topks st line).state.window =
        (rotate W topks { st with lines := st.lines + 1 } t).window ∧
      (processLine W topks st line).state.lines =
        (rotate W topks { st with lines := st.lines + 1 } t).lines ∧
      tickCount (processLine W topks st line).state.calls =
        tickCount (rotate W topks { st with lines := st.lines + 1 } t).calls := by
  unfold timestampOf at h
  unfold processLine
  split at h
  · simp at h
  · rename_i f0 rest hs
    simp only [hs, h]
    split_ifs
    · split
      · simp [LineResult.state]
      · simp [LineResult.state, hoku.Add, tickCount, List.countP_append, Call.isTick]
    · split
      · simp [LineResult.state]
      · simp [LineResult.state, hoku.Add, tickCount, List.countP_append, Call.isTick]

theorem foldl_max_ge_init (ts : List Int) (a : Int) : a ≤ ts.foldl max a := by
  induction ts generalizing a with
  | nil => simp
  | cons t ts ih =>
    simp only [List.foldl_cons]
    exact le_trans (le_max_left a t) (ih (max a t))

theorem foldl_max_ge_mem (ts : List Int) (a : Int) : ∀ p ∈ ts, p ≤ ts.foldl max a := by
  induction ts generalizing a with
  | nil => simp
  | cons t ts ih =>
    intro p hp
    simp only [List.foldl_cons]
    rcases List.mem_cons.mp hp with h | h
    · rw [h]
      exact le_trans (le_max_right a t) (foldl_max_ge_init ts (max a t))
    · exact ih (max a t) p h

theorem newMaxCount_append_singleton (prev ts : List Int) (t : Int) :
    newMaxCount prev (ts ++ [t]) =
      newMaxCount prev ts + (if ∀ p ∈ prev ++ ts, p < t then 1 else 0) := by
  induction ts generalizing prev with
  | nil => simp [newMaxCount]
  | cons u us ih =>
    show newMaxCount prev (u :: (us ++ [t])) = _
    rw [newMaxCount, ih (prev ++ [u]), newMaxCount]
    simp only [List.append_assoc, List.singleton_append]
    omega

theorem parsedTimestamps_append_singleton (pre : List String) (line : String) :
    parsedTimestamps (pre ++ [line]) =
      parsedTimestamps pre ++ (match timestampOf line with
        | some t => [t]
        | none => []) := by
  unfold parsedTimestamps
  rw [List.filterMap_append]
  congr 1
  cases h : timestampOf line <;> simp [List.filterMap, h]

theorem rotate_maxEpoch_eq (W topks : Int) (s : ReplayState) (t : Int) :
    (rotate W topks s t).maxEpoch = max s.maxEpoch t := by
  by_cases h1 : t > s.maxEpoch
  · have hmax : max s.maxEpoch t = t := max_eq_right (le_of_lt h1)
    simp only [rotate, h1, if_true, hmax]
    split_ifs <;> rfl
  · have hmax : max s.maxEpoch t = s.maxEpoch := max_eq_left (by omega)
    simp only [rotate, h1, if_false, hmax]

theorem rotate_lines (W topks : Int) (s : ReplayState) (t : Int) :
    (rotate W topks s t).lines = s.lines := by
  by_cases h1 : t > s.maxEpoch
  · simp only [rotate, h1, if_true]
    split_ifs <;> rfl
  · simp only [rotate, h1, if_false]

theorem rotate_tickCount_le_ite (W topks : Int) (s : ReplayState) (t : Int) :
    tickCount (rotate W topks s t).calls ≤
      tickCount s.calls + (if s.maxEpoch < t then 1 else 0) := by
  by_cases h1 : t > s.maxEpoch
  · have h2 : s.maxEpoch < t := h1
    simp only [rotate, h1, if_true, h2]
    split_ifs <;> simp [tickCount, List.countP_append, Call.isTick]
  · have h2 : ¬ s.maxEpoch < t := h1
    simp only [rotate, h1, if_false, h2]
    omega

theorem rotate_window_lt {W topks : Int} {s : ReplayState} {t : Int} (hW : 0 < W)
    (h : s.window < W) : (rotate W topks s t).window < W := by
  by_cases h1 : t > s.maxEpoch
  · simp only [rotate, h1, if_true]
    split_ifs with h2
    · exact hW
    · simp only [ge_iff_le, not_le] at h2
      exact h2
  · simp only [rotate, h1, if_false]
    exact h

theorem rotate_windowInv {W topks epoch0 : Int} {s : ReplayState} {t : Int} (hW : 0 < W)
    (h : WindowInv W epoch0 s) (ht : t - epoch0 < 9223372036854775808) :
    WindowInv W epoch0 (rotate W topks s t) := by
  obtain ⟨h0, h1, h2⟩ := h
  unfold WindowInv
  by_cases hgt : s.maxEpoch < t
  · have hi1 : InInt64 (t - s.maxEpoch) := by unfold InInt64; omega
    have hi2 : InInt64 (s.window + (t - s.maxEpoch)) := by unfold InInt64; omega
    rw [rotate_of_gt hgt hi1 hi2]
    split_ifs with hge
    · exact ⟨le_refl _, hW, by simp only; omega⟩
    · exact ⟨by simp only; omega, by simp only; omega, by simp only; omega⟩
  · rw [rotate_of_le (by omega)]
    exact ⟨h0, h1, h2⟩

theorem processLine_inv {topks epoch0 : Int} (W : Int) {pre : List String}
    {st : ReplayState} {line : String} (hinv : ReplayInv epoch0 pre st) :
    ReplayInv epoch0 (pre ++ [line]) (processLine W topks st line).state := by
  obtain ⟨h3, h4, h5⟩ := hinv
  unfold ReplayInv
  rw [parsedTimestamps_append_singleton]
  cases hts : timestampOf line with
  | none =>
    rw [processLine_state_of_no_timestamp hts]
    simp only [List.append_nil, List.length_append, List.length_singleton]
    exact ⟨h3, h4, by omega⟩
  | some t =>
    obtain ⟨e1, _, e3, e4⟩ := @processLine_state_of_timestamp W topks st line t hts
    have r1 := rotate_maxEpoch_eq W topks { st with lines := st.lines + 1 } t
    have r5 := rotate_lines W topks { st with lines := st.lines + 1 } t
    have r6 := rotate_tickCount_le_ite W topks { st with lines := st.lines + 1 } t
    rw [e1, e3, e4]
    simp only [List.foldl_append, List.foldl_cons, List.foldl_nil, List.length_append,
      List.length_singleton, newMaxCount_append_singleton, List.nil_append]
    refine ⟨?_, ?_, ?_⟩
    · rw [r1, ← h3]
    · have hmono : (if st.maxEpoch < t then 1 else 0) ≤
          (if ∀ p ∈ parsedTimestamps pre, p < t then 1 else 0) := by
        by_cases hgt : st.maxEpoch < t
        · have hall : ∀ p ∈ parsedTimestamps pre, p < t := by
            intro p hp
            have := foldl_max_ge_mem (parsedTimestamps pre) epoch0 p hp
            omega
          rw [if_pos hgt, if_pos hall]
        · simp only [hgt, if_false]
          exact Nat.zero_le _
      simp only at r6
      omega
    · rw [r5]
      simp only
      omega

theorem processLine_window_lt {W topks : Int} {st : ReplayState} (line : String)
    (hW : 0 < W) (h : st.window < W) : (processLine W topks st line).state.window < W := by
  cases hts : timestampOf line with
  | none =>
    rw [processLine_state_of_no_timestamp hts]
    exact h
  | some t =>
    rw [(@processLine_state_of_timestamp W topks st line t hts).2.1]
    exact @rotate_window_lt W topks { st with lines := st.lines + 1 } t hW h

theorem processLine_windowInv {W topks epoch0 : Int} {st : ReplayState} {line : String}
    (hW : 0 < W) (h : WindowInv W epoch0 st)
    (hr : ∀ t, timestampOf line = some t → t - epoch0 < 9223372036854775808) :
    WindowInv W epoch0 (processLine W topks st line).state := by
  cases hts : timestampOf line with
  | none =>
    rw [processLine_state_of_no_timestamp hts]
    exact h
  | some t =>
    obtain ⟨e1, e2, _, _⟩ := @processLine_state_of_timestamp W topks st line t hts
    have hrot := @rotate_windowInv W topks epoch0 { st with lines := st.lines + 1 } t hW h
      (hr t hts)
    unfold WindowInv at hrot ⊢
    rw [e1, e2]
    exact hrot

theorem rotate_maxEpoch_ge (W topks : Int) (s : ReplayState) (t : Int) :
    s.maxEpoch ≤ (rotate W topks s t).maxEpoch := by
  rw [rotate_maxEpoch_eq]
  exact le_max_left _ _

theorem processLine_maxEpoch_ge (W topks : Int) (s : ReplayState) (line : String) :
    s.maxEpoch ≤ (processLine W topks s line).state.maxEpoch := by
  cases hts : timestampOf line with
  | none => rw [processLine_state_of_no_timestamp hts]
  | some t =>
    rw [(@processLine_state_of_timestamp W topks s line t hts).1]
    exact rotate_maxEpoch_ge W topks { s with lines := s.lines + 1 } t

theorem scanLoop_inv (W topks epoch0 : Int) :
    ∀ (rest pre : List String) (st : ReplayState), ReplayInv epoch0 pre st →
      ∃ n, n ≤ rest.length ∧
        ReplayInv epoch0 (pre ++ rest.take n) (scanLoop W topks st rest).state ∧
        (∀ s, scanLoop W topks st rest = LineResult.next s → n = rest.length) ∧
        (0 < W → st.window < W → (scanLoop W topks st rest).state.window < W) ∧
        (0 < W → WindowInv W epoch0 st →
          (∀ t ∈ parsedTimestamps rest, t - epoch0 < 9223372036854775808) →
          WindowInv W epoch0 (scanLoop W topks st rest).state) := by
  intro rest
  induction rest with
  | nil =>
    intro pre st hinv
    exact ⟨0, le_refl _, by simpa [scanLoop, LineResult.state] using hinv, fun _ _ => rfl,
      fun _ h => h, fun _ h _ => h⟩
  | cons line more ih =>
    intro pre st hinv
    have hstep := @processLine_inv topks epoch0 W pre st line hinv
    have hsplit : ∀ (P : Int → Prop), (∀ t ∈ parsedTimestamps (line :: more), P t) →
        (∀ t, timestampOf line = some t → P t) ∧ (∀ t ∈ parsedTimestamps more, P t) := by
      intro P hr
      constructor
      · intro t ht
        apply hr
        simp only [parsedTimestamps, List.filterMap_cons, ht]
        exact List.mem_cons_self _ _
      · intro t ht
        apply hr
        simp only [parsedTimestamps, List.filterMap_cons]
        cases timestampOf line with
        | none => exact ht
        | some u => exact List.mem_cons_of_mem _ ht
    cases hp : processLine W topks st line with
    | next st1 =>
      have hst1 : (processLine W topks st line).state = st1 := by rw [hp]; rfl
      rw [hst1] at hstep
      obtain ⟨n, hn, hinv1, hall, hlt, hwin⟩ := ih (pre ++ [line]) st1 hstep
      refine ⟨n + 1, by simp only [List.length_cons]; omega, ?_, ?_, ?_, ?_⟩
      · simp only [scanLoop, hp, List.take_succ_cons]
        simpa [List.append_assoc] using hinv1
      · intro s hs
        simp only [scanLoop, hp] at hs
        simp only [List.length_cons]
        rw [hall s hs]
      · intro hW h
        simp only [scanLoop, hp]
        apply hlt hW
        rw [← hst1]
        exact processLine_window_lt line hW h
      · intro hW h hr
        obtain ⟨hr1, hr2⟩ := hsplit _ hr
        simp only [scanLoop, hp]
        apply hwin hW _ hr2
        rw [← hst1]
        exact processLine_windowInv hW h hr1
    | panic st1 msg =>
      have hst1 : (processLine W topks st line).state = st1 := by rw [hp]; rfl
      rw [hst1] at hstep
      refine ⟨1, by simp only [List.length_cons]; omega, ?_, ?_, ?_, ?_⟩
      · simp only [scanLoop, hp, List.take_succ_cons, List.take_zero]
        exact hstep
      · intro s hs
        simp [scanLoop, hp] at hs
      · intro hW h
        simp only [scanLoop, hp, LineResult.state]
        rw [← hst1]
        exact processLine_window_lt line hW h
      · intro hW h hr
        obtain ⟨hr1, _⟩ := hsplit _ hr
        simp only [scanLoop, hp, LineResult.state]
        rw [← hst1]
        exact processLine_windowInv hW h hr1

/-- C10, counterexample. With `epoch0 = -1` and `WindowSize = 60`, a file whose single
line is `"9223372036854775807\tx"` makes `t - maxEpoch` overflow `int64`: after the
line the window counter is `-9223372036854775808`, which is negative. -/
theorem replay_window_negative_on_overflow :
    loadDataFrom 60 (-1) 100 "9223372036854775807\tx\n" =
        LineResult.next ⟨[Call.topkTick 100, Call.sketchAdd 9223372036854775807 "x" 1,
          Call.topkInsert "x" 1], 9223372036854775807, -9223372036854775808, 1⟩ ∧
      ¬ (0 ≤ (loadDataFrom 60 (-1) 100 "9223372036854775807\tx\n").state.window) := by
  decide

/-- C10, amended. For every `WindowSize` `W`, anchor `epoch0` and file content, in the
state reached by `loadDataFrom` (at the end of the scan, or at the panic that stops
it): the line counter is the number of scanned lines consumed, and is the number of
all scanned lines when the run does not panic; `maxEpoch` is the maximum of `epoch0`
and of all timestamps parsed in the consumed lines (records skipped for a malformed
count included); the number of `Tick` calls issued by the scan loop (one more was
issued before the loop) is at most the number of consumed timestamps that strictly
exceed every earlier one; and every loop iteration leaves `maxEpoch` unchanged or
increases it. For positive `W`, `window < W`. For positive `W` and parsed timestamps
`t` that all satisfy `t - epoch0 < 2^63` (always so when `epoch0 ≥ 0`), `0 ≤ window`. -/
theorem replay_invariant (W epoch0 topks : Int) (content : String) :
    (loadDataFrom W epoch0 topks content).state.lines ≤ (scannerLines content).length ∧
    (∀ s, loadDataFrom W epoch0 topks content = LineResult.next s →
      s.lines = (scannerLines content).length) ∧
    (loadDataFrom W epoch0 topks content).state.maxEpoch =
      (parsedTimestamps ((scannerLines content).take
        (loadDataFrom W epoch0 topks content).state.lines)).foldl max epoch0 ∧
    tickCount (loadDataFrom W epoch0 topks content).state.calls ≤
      1 + newMaxCount [] (parsedTimestamps ((scannerLines content).take
        (loadDataFrom W epoch0 topks content).state.lines)) ∧
    (∀ (s : ReplayState) (line : String),
      s.maxEpoch ≤ (processLine W topks s line).state.maxEpoch) ∧
    (0 < W → (loadDataFrom W epoch0 topks content).state.window < W) ∧
    (0 < W →
      (∀ t ∈ parsedTimestamps (scannerLines content), t - epoch0 < 9223372036854775808) →
      0 ≤ (loadDataFrom W epoch0 topks content).state.window) := by
  have hinit : ReplayInv epoch0 [] (replayInit epoch0 topks) := by
    unfold ReplayInv replayInit
    refine ⟨by simp [parsedTimestamps], ?_, by simp⟩
    simp [tickCount, Call.isTick, parsedTimestamps, newMaxCount]
  obtain ⟨n, hn, hinv, hall, hlt, hwin⟩ :=
    scanLoop_inv W topks epoch0 (scannerLines content) [] (replayInit epoch0 topks) hinit
  simp only [List.nil_append] at hinv
  obtain ⟨h3, h4, h5⟩ := hinv
  have hlen : (loadDataFrom W epoch0 topks content).state.lines = n := by
    unfold loadDataFrom
    rw [h5, List.length_take]
    omega
  rw [hlen]
  refine ⟨hn, ?_, h3, h4, processLine_maxEpoch_ge W topks, ?_, ?_⟩
  · intro s hs
    have hn2 := hall s hs
    have hs2 : (loadDataFrom W epoch0 topks content).state = s := by rw [hs]; rfl
    rw [← hs2, hlen, hn2]
  · intro hW
    exact hlt hW hW
  · intro hW hr
    have hw0 : WindowInv W epoch0 (replayInit epoch0 topks) := by
      unfold WindowInv replayInit
      exact ⟨le_refl _, hW, by simp⟩
    exact (hwin hW hw0 hr).1

/-- Witness of the amended C10 at `W = 60`, `epoch0 = 1000` and a file of four lines:
an in-order record, a record with a malformed count, an out-of-order record and a
record with a malformed timestamp. -/
theorem replay_invariant_witness :
    (loadDataFrom 60 1000 100 "1030\ta\t1\n1100\tb\tbad\n1050\tc\nbad\td\n").state.window
        < 60 ∧
      0 ≤ (loadDataFrom 60 1000 100
        "1030\ta\t1\n1100\tb\tbad\n1050\tc\nbad\td\n").state.window :=
  ⟨(replay_invariant 60 1000 100 "1030\ta\t1\n1100\tb\tbad\n1050\tc\nbad\td\n").2.2.2.2.2.1
      (by decide),
    (replay_invariant 60 1000 100 "1030\ta\t1\n1100\tb\tbad\n1050\tc\nbad\td\n").2.2.2.2.2.2
      (by decide) (by decide)⟩

/-! ## C7: live driver versus replay driver -/

theorem liveStep_request_eq (topks now : Int) (calls : List Call) (item countS tS : String) :
    liveStep topks calls (LiveEvent.request now item countS tS) =
      match acceptedEvent now item countS tS with
      | none => calls
      | some ev =>
        calls ++ [Call.sketchAdd ev.timestamp ev.key (toUint32 ev.weight),
          Call.topkInsert ev.key ev.weight] := by
  rcases h1 : defaultInt countS 1 with ⟨c, e1⟩
  rcases h2 : defaultInt tS 0 with ⟨t, e2⟩
  cases e1 <;> cases e2 <;> simp [liveStep, addHandler, acceptedEvent, h1, h2, hoku.Add]

theorem rotate_insertCalls (W topks : Int) (s : ReplayState) (t : Int) :
    insertCalls (rotate W topks s t).calls = insertCalls s.calls := by
  by_cases h1 : t > s.maxEpoch
  · simp only [rotate, h1, if_true]
    split_ifs <;> simp [insertCalls, List.filter_append, Call.isInsert]
  · simp only [rotate, h1, if_false]

theorem live_replay_inserts_aux (W topks : Int) :
    ∀ (timeline : List LiveEvent) (lines : List String) (calls : List Call)
      (st : ReplayState),
      (∀ ev ∈ eventsOf timeline, WeightInRange ev) →
      List.Forall₂ IsRecord lines (eventsOf timeline) →
      insertCalls calls = insertCalls st.calls →
      ∃ st1, scanLoop W topks st lines = LineResult.next st1 ∧
        insertCalls (timeline.foldl (liveStep topks) calls) = insertCalls st1.calls ∧
        tickCount (timeline.foldl (liveStep topks) calls) =
          tickCount calls + timerCount timeline := by
  intro timeline
  induction timeline with
  | nil =>
    intro lines calls st _ hrec heq
    simp only [eventsOf] at hrec
    cases hrec
    exact ⟨st, rfl, by simpa using heq, by simp [timerCount]⟩
  | cons e tl ih =>
    intro lines calls st hw hrec heq
    cases e with
    | request now item countS tS =>
      have htc : timerCount (LiveEvent.request now item countS tS :: tl) = timerCount tl := by
        simp [timerCount, List.countP_cons]
      rw [List.foldl_cons, liveStep_request_eq, htc]
      cases hev : acceptedEvent now item countS tS with
      | none =>
        simp only [eventsOf, hev] at hrec hw
        exact ih lines calls st hw hrec heq
      | some ev =>
        simp only [eventsOf, hev] at hrec hw
        cases hrec with
        | cons hline hmore =>
          rename_i line more
          have hw0 : WeightInRange ev := hw ev (List.mem_cons_self _ _)
          have hp := @processLine_of_record W topks st line ev hline hw0
          have heq1 : insertCalls (calls ++ [Call.sketchAdd ev.timestamp ev.key
              (toUint32 ev.weight), Call.topkInsert ev.key ev.weight]) =
              insertCalls ((rotate W topks { st with lines := st.lines + 1 }
                ev.timestamp).calls ++
                [Call.sketchAdd ev.timestamp ev.key ev.weight.toNat,
                  Call.topkInsert ev.key ev.weight]) := by
            have hrot := rotate_insertCalls W topks { st with lines := st.lines + 1 }
              ev.timestamp
            simp only [insertCalls, List.filter_append] at hrot heq ⊢
            rw [hrot, heq]
            simp [Call.isInsert]
          obtain ⟨st1, hs1, hi1, ht1⟩ := ih more _
            { rotate W topks { st with lines := st.lines + 1 } ev.timestamp with
              calls := (rotate W topks { st with lines := st.lines + 1 }
                ev.timestamp).calls ++
                [Call.sketchAdd ev.timestamp ev.key ev.weight.toNat,
                  Call.topkInsert ev.key ev.weight] }
            (fun r hr => hw r (List.mem_cons_of_mem _ hr)) hmore heq1
          refine ⟨st1, ?_, hi1, ?_⟩
          · simp only [scanLoop, hp]
            exact hs1
          · rw [ht1]
            simp [tickCount, List.countP_append, Call.isTick]
    | timer t =>
      simp only [eventsOf] at hrec hw
      have heq1 : insertCalls (liveStep topks calls (LiveEvent.timer t)) =
          insertCalls st.calls := by
        rw [← heq]
        simp [liveStep, liveTick, hoku.Add, insertCalls, List.filter_append, Call.isInsert]
      obtain ⟨st1, hs1, hi1, ht1⟩ :=
        ih lines (liveStep topks calls (LiveEvent.timer t)) st hw hrec heq1
      refine ⟨st1, hs1, ?_, ?_⟩
      · simp only [List.foldl_cons]
        exact hi1
      · simp only [List.foldl_cons, ht1]
        simp [liveStep, liveTick, hoku.Add, tickCount, List.countP_append, Call.isTick,
          timerCount, List.countP_cons]
        omega

theorem topkCalls_append (a b : List Call) :
    topkCalls (a ++ b) = topkCalls a ++ topkCalls b := by
  simp [topkCalls, List.filter_append]

theorem topkCalls_add_insert (epoch : Int) (k : String) (n : Nat) (w : Int) :
    topkCalls [Call.sketchAdd epoch k n, Call.topkInsert k w] = [Call.topkInsert k w] := by
  simp [topkCalls, Call.isInsert, Call.isTick]

theorem topkCalls_tick (topks : Int) : topkCalls [Call.topkTick topks] = [Call.topkTick topks] := by
  simp [topkCalls, Call.isInsert, Call.isTick]

theorem live_replay_aligned_aux (W topks : Int) (hW : 0 < W)
    (hW2 : W < 9223372036854775808) :
    ∀ (timeline : List LiveEvent) (lines : List String) (calls : List Call)
      (st : ReplayState) (pending : Bool) (b : Int),
      (∀ ev ∈ eventsOf timeline, WeightInRange ev) →
      List.Forall₂ IsRecord lines (eventsOf timeline) →
      Aligned W pending b timeline →
      b ≤ st.maxEpoch → st.maxEpoch < b + W → st.window = st.maxEpoch - b →
      topkCalls calls =
        topkCalls st.calls ++ (if pending = true then [Call.topkTick topks] else []) →
      ∃ st1, scanLoop W topks st lines = LineResult.next st1 ∧
        topkCalls (timeline.foldl (liveStep topks) calls) = topkCalls st1.calls := by
  intro timeline
  induction timeline with
  | nil =>
    intro lines calls st pending b _ hrec hal _ _ _ heq
    simp only [eventsOf] at hrec
    cases hrec
    simp only [Aligned] at hal
    rw [hal] at heq
    exact ⟨st, rfl, by simpa using heq⟩
  | cons e tl ih =>
    intro lines calls st pending b hw hrec hal hb1 hb2 hwin heq
    cases e with
    | request now item countS tS =>
      rw [List.foldl_cons, liveStep_request_eq]
      cases hev : acceptedEvent now item countS tS with
      | none =>
        simp only [eventsOf, hev] at hrec hw
        simp only [Aligned, hev] at hal
        exact ih lines calls st pending b hw hrec hal hb1 hb2 hwin heq
      | some ev =>
        simp only [eventsOf, hev] at hrec hw
        simp only [Aligned, hev] at hal
        cases hrec with
        | cons hline hmore =>
          rename_i line more
          have hw0 : WeightInRange ev := hw ev (List.mem_cons_self _ _)
          have hwtl : ∀ r ∈ eventsOf tl, WeightInRange r :=
            fun r hr => hw r (List.mem_cons_of_mem _ hr)
          have hp := @processLine_of_record W topks st line ev hline hw0
          cases pending with
          | true =>
            simp only [if_true] at hal heq
            obtain ⟨ht, hal2⟩ := hal
            have hgt : st.maxEpoch < ev.timestamp := by omega
            have hi1 : InInt64 (ev.timestamp - st.maxEpoch) := by unfold InInt64; omega
            have hi2 : InInt64 (st.window + (ev.timestamp - st.maxEpoch)) := by
              unfold InInt64; omega
            have hr := @rotate_of_gt W topks { st with lines := st.lines + 1 } ev.timestamp
              hgt hi1 hi2
            have hge : W ≤ st.window + (ev.timestamp - st.maxEpoch) := by omega
            simp only [if_pos hge] at hr
            rw [hr] at hp
            simp only at hp
            obtain ⟨st1, hs1, hi⟩ := ih more
              (calls ++ [Call.sketchAdd ev.timestamp ev.key (toUint32 ev.weight),
                Call.topkInsert ev.key ev.weight])
              ⟨st.calls ++ [Call.topkTick topks] ++
                [Call.sketchAdd ev.timestamp ev.key ev.weight.toNat,
                  Call.topkInsert ev.key ev.weight], ev.timestamp, 0, st.lines + 1⟩
              false (b + W) hwtl hmore hal2 (by simp only; omega) (by simp only; omega)
              (by simp only; omega)
              (by
                simp only [topkCalls_append, topkCalls_add_insert, topkCalls_tick, heq,
                  Bool.false_eq_true, if_false, List.append_nil, List.append_assoc])
            exact ⟨st1, by simp only [scanLoop, hp]; exact hs1, hi⟩
          | false =>
            simp only [Bool.false_eq_true, if_false, List.append_nil] at hal heq
            obtain ⟨ht, hal2⟩ := hal
            by_cases hgt : st.maxEpoch < ev.timestamp
            · have hi1 : InInt64 (ev.timestamp - st.maxEpoch) := by unfold InInt64; omega
              have hi2 : InInt64 (st.window + (ev.timestamp - st.maxEpoch)) := by
                unfold InInt64; omega
              have hr := @rotate_of_gt W topks { st with lines := st.lines + 1 } ev.timestamp
                hgt hi1 hi2
              have hlt : ¬ W ≤ st.window + (ev.timestamp - st.maxEpoch) := by omega
              simp only [if_neg hlt] at hr
              rw [hr] at hp
              simp only at hp
              obtain ⟨st1, hs1, hi⟩ := ih more
                (calls ++ [Call.sketchAdd ev.timestamp ev.key (toUint32 ev.weight),
                  Call.topkInsert ev.key ev.weight])
                ⟨st.calls ++ [Call.sketchAdd ev.timestamp ev.key ev.weight.toNat,
                    Call.topkInsert ev.key ev.weight], ev.timestamp,
                  st.window + (ev.timestamp - st.maxEpoch), st.lines + 1⟩
                false b hwtl hmore hal2 (by simp only; omega) (by simp only; omega)
                (by simp only; omega)
                (by
                  simp only [topkCalls_append, topkCalls_add_insert, heq,
                    Bool.false_eq_true, if_false, List.append_nil])
              exact ⟨st1, by simp only [scanLoop, hp]; exact hs1, hi⟩
            · have hr := @rotate_of_le W topks { st with lines := st.lines + 1 } ev.timestamp
                (by simp only; omega)
              rw [hr] at hp
              simp only at hp
              obtain ⟨st1, hs1, hi⟩ := ih more
                (calls ++ [Call.sketchAdd ev.timestamp ev.key (toUint32 ev.weight),
                  Call.topkInsert ev.key ev.weight])
                ⟨st.calls ++ [Call.sketchAdd ev.timestamp ev.key ev.weight.toNat,
                    Call.topkInsert ev.key ev.weight], st.maxEpoch, st.window,
                  st.lines + 1⟩
                false b hwtl hmore hal2 hb1 hb2 hwin
                (by
                  simp only [topkCalls_append, topkCalls_add_insert, heq,
                    Bool.false_eq_true, if_false, List.append_nil])
              exact ⟨st1, by simp only [scanLoop, hp]; exact hs1, hi⟩
    | timer t =>
      simp only [eventsOf] at hrec hw
      simp only [Aligned] at hal
      obtain ⟨hpend, hal2⟩ := hal
      rw [hpend] at heq
      simp only [Bool.false_eq_true, if_false, List.append_nil] at heq
      rw [List.foldl_cons]
      exact ih lines (liveStep topks calls (LiveEvent.timer t)) st true b hw hrec hal2
        hb1 hb2 hwin
        (by
          simp only [liveStep, liveTick, hoku.Add, topkCalls_append, heq, if_true,
            topkCalls_tick, List.append_assoc]
          simp [topkCalls, Call.isInsert, Call.isTick])

/-- C7, counterexample. Live mode started at `now = 960` with `WindowSize = 60`
(`Epoch0 = 960`), replay from `epoch0 = 960` of the same events.
First, a gap: requests at `970` and `1150` with timer wake-ups at `1020`, `1080`,
`1140` give `Tick, Insert a, Tick, Tick, Tick, Insert b` live and
`Tick, Insert a, Tick, Insert b` in replay.
Second, no gap: requests at `1010`, `1030`, `1075`, `1085` with timer wake-ups at
`1020`, `1080` give `Tick, a, Tick, b, c, Tick, d` live and `Tick, a, Tick, b, c, d`
in replay, because the replay counter restarts at the record that fired the `Tick`.
Third, a weight outside `uint32`: the request `count=-1` gives `Insert("a", -1)` live
and `Insert("a", 4294967295)` in replay. -/
theorem live_replay_ticks_differ :
    liveEpoch0 960 60 = some 960 ∧
      topkCalls (liveRun 100
        [LiveEvent.request 970 "a" "1" "970", LiveEvent.timer 1020, LiveEvent.timer 1080,
          LiveEvent.timer 1140, LiveEvent.request 1150 "b" "1" "1150"]) =
        [Call.topkTick 100, Call.topkInsert "a" 1, Call.topkTick 100, Call.topkTick 100,
          Call.topkTick 100, Call.topkInsert "b" 1] ∧
      topkCalls (loadDataFrom 60 960 100 "970\ta\t1\n1150\tb\t1\n").state.calls =
        [Call.topkTick 100, Call.topkInsert "a" 1, Call.topkTick 100,
          Call.topkInsert "b" 1] ∧
      topkCalls (liveRun 100
        [LiveEvent.request 1010 "a" "1" "1010", LiveEvent.timer 1020,
          LiveEvent.request 1030 "b" "1" "1030", LiveEvent.request 1075 "c" "1" "1075",
          LiveEvent.timer 1080, LiveEvent.request 1085 "d" "1" "1085"]) =
        [Call.topkTick 100, Call.topkInsert "a" 1, Call.topkTick 100,
          Call.topkInsert "b" 1, Call.topkInsert "c" 1, Call.topkTick 100,
          Call.topkInsert "d" 1] ∧
      topkCalls (loadDataFrom 60 960 100
          "1010\ta\t1\n1030\tb\t1\n1075\tc\t1\n1085\td\t1\n").state.calls =
        [Call.topkTick 100, Call.topkInsert "a" 1, Call.topkTick 100,
          Call.topkInsert "b" 1, Call.topkInsert "c" 1, Call.topkInsert "d" 1] ∧
      topkCalls (liveRun 100 [LiveEvent.request 970 "a" "-1" "970"]) =
        [Call.topkTick 100, Call.topkInsert "a" (-1)] ∧
      topkCalls (loadDataFrom 60 960 100 "970\ta\t-1\n").state.calls =
        [Call.topkTick 100, Call.topkInsert "a" 4294967295] := by
  decide

/-- C7, amended. Take any live timeline (requests and timer wake-ups in any order)
whose accepted requests all have a weight in `0 .. 2^32 - 1`, and a replay file whose
scanned lines are, in the same order, one record per accepted request: the epoch the
live handler used, the item, and the count (the count field may be left out when the
count is 1). Then the replay does not panic and issues the same sequence of `Insert`
calls as the live run, and the live run issues one `Tick` at start and one per timer
wake-up. If moreover `0 < W < 2^63` and the timeline follows the window grid of
`epoch0` (every timer wake-up is followed, before any other accepted request, by a
request stamped exactly at the next window boundary, and every other accepted
request is stamped before the next boundary), then live run and replay issue the same
sequence of `Insert` and `Tick` calls. -/
theorem live_replay_equivalence (W epoch0 topks : Int) (timeline : List LiveEvent)
    (content : String) (hw : ∀ ev ∈ eventsOf timeline, WeightInRange ev)
    (hrec : List.Forall₂ IsRecord (scannerLines content) (eventsOf timeline)) :
    (∃ st, loadDataFrom W epoch0 topks content = LineResult.next st) ∧
    insertCalls (liveRun topks timeline) =
      insertCalls (loadDataFrom W epoch0 topks content).state.calls ∧
    tickCount (liveRun topks timeline) = 1 + timerCount timeline ∧
    (0 < W → W < 9223372036854775808 → Aligned W false epoch0 timeline →
      topkCalls (liveRun topks timeline) =
        topkCalls (loadDataFrom W epoch0 topks content).state.calls) := by
  obtain ⟨st1, hs, hi, ht⟩ := live_replay_inserts_aux W topks timeline
    (scannerLines content) (liveInit topks) (replayInit epoch0 topks) hw hrec rfl
  have hstate : (loadDataFrom W epoch0 topks content).state = st1 := by
    unfold loadDataFrom
    rw [hs]
    rfl
  refine ⟨⟨st1, hs⟩, ?_, ?_, ?_⟩
  · rw [hstate]
    exact hi
  · unfold liveRun
    rw [ht]
    simp [liveInit, tickCount, Call.isTick]
  · intro hW hW2 hal
    obtain ⟨st2, hs2, hi2⟩ := live_replay_aligned_aux W topks hW hW2 timeline
      (scannerLines content) (liveInit topks) (replayInit epoch0 topks) false epoch0
      hw hrec hal (le_refl _) (by simp only [replayInit]; omega)
      (by simp only [replayInit]; omega) (by simp [liveInit, replayInit])
    have hstate2 : (loadDataFrom W epoch0 topks content).state = st2 := by
      unfold loadDataFrom
      rw [hs2]
      rfl
    rw [hstate2]
    exact hi2

/-- Witness of the amended C7 at `W = 60`, `epoch0 = 960`: a request at `970`, a
timer wake-up followed by a request without `count` and `t` served at `1020`, a
request at `1030` and a rejected request; the replay file holds the three records.
Both drivers issue `Tick, Insert a, Tick, Insert b, Insert c`. -/
theorem live_replay_equivalence_witness :
    topkCalls (liveRun 100
        [LiveEvent.request 970 "a" "1" "970", LiveEvent.timer 1020,
          LiveEvent.request 1020 "b" "" "", LiveEvent.request 1030 "c" "2" "1030",
          LiveEvent.request 1031 "d" "bad" "1031"]) =
      topkCalls (loadDataFrom 60 960 100 "970\ta\t1\n1020\tb\n1030\tc\t2\n").state.calls :=
  (live_replay_equivalence 60 960 100
    [LiveEvent.request 970 "a" "1" "970", LiveEvent.timer 1020,
      LiveEvent.request 1020 "b" "" "", LiveEvent.request 1030 "c" "2" "1030",
      LiveEvent.request 1031 "d" "bad" "1031"]
    "970\ta\t1\n1020\tb\n1030\tc\t2\n" (by decide) (by decide)).2.2.2
    (by decide) (by decide) (by decide)

end Hokud
